import Mathlib

/-! # portainer-stack-utils: resolution, selection and rendering (`common/utils.go`)

A shallow embedding of the functions of `common/utils.go` and the properties
proved about them.

Conventions of the embedding.

* A Go function returning `(x, err)` is a Lean function into `Outcome`, whose
  constructor `returned x err` carries both components of the pair
  (`err = none` is Go's `nil` error) and whose constructor `panicked p` is a
  run-time panic: the call does not return.
* `map[string]interface{}` is an association list read by first match;
  indexing an absent key yields the nil interface value, as in Go.
* The API client is a collaborator outside the file: the result of each of its
  calls is a field of `PortainerClient`, and `GetClient()` is the first
  argument of every function that calls it.
* `reflect.Type` is the inductive type `ReflectType` of finite descriptors, and
  `fmt.Sprintf` is modelled on the `%s` verb, the only one `utils.go` uses.
-/

namespace Common

/-! ## Errors -/

/-- Go `error` values. `Error msg` is a value of the string type `Error`
declared in `utils.go`; `foreign msg` is an error value of any other dynamic
type (what the API client reports). Go's `==` on two `error` interfaces is
equality of constructor and payload. -/
inductive GoError where
  | Error (msg : String)
  | foreign (msg : String)
  deriving DecidableEq

def ErrStackNotFound : GoError := .Error "Stack not found"

def ErrStackClusterNotFound : GoError := .Error "Stack cluster not found"

def ErrEndpointNotFound : GoError := .Error "Endpoint not found"

def ErrSeveralEndpointsAvailable : GoError := .Error "Several endpoints available"

def ErrNoEndpointsAvailable : GoError := .Error "No endpoints available"

def valueNotFoundError : GoError := .Error "Value not found"

/-- The two run-time panics the functions of `utils.go` can raise: indexing a
slice out of range (`jsonPath[0]` on an empty path) and a failed unchecked type
assertion (`value.(map[string]interface{})`, `id.(string)`). -/
inductive Panic where
  | indexOutOfRange
  | interfaceConversion
  deriving DecidableEq

/-- Result of calling a Go function with results `(value, err)`. -/
inductive Outcome (α : Type) where
  | returned (value : α) (err : Option GoError)
  | panicked (p : Panic)

/-! ## Dynamic values -/

/-- Go `interface{}` values of a decoded JSON document: the nil interface,
booleans, numbers, strings, `[]interface{}` and `map[string]interface{}`. -/
inductive Value where
  | nil
  | bool (b : Bool)
  | number (x : Rat)
  | str (s : String)
  | array (items : List Value)
  | object (fields : List (String × Value))

/-- Go `map[string]interface{}`. -/
abbrev JsonMap := List (String × Value)

/-- Go map indexing `jsonMap[key]`: the stored value, or the zero value of
`interface{}` (nil) when the key is absent. -/
def mapIndex (jsonMap : JsonMap) (key : String) : Value :=
  match jsonMap.lookup key with
  | some value => value
  | none => Value.nil

/-! ## Entities -/

/-- Modelled from the spec: `portainer.Endpoint` is declared in the imported
portainer API package, not in this repository. Per the data model it has a
numeric identity, a name, and schema-less orchestration-engine metadata. -/
structure Endpoint where
  ID : Int
  Name : String
  Metadata : JsonMap

/-- Zero value `portainer.Endpoint{}` of a named result that was never assigned. -/
def Endpoint.zero : Endpoint := ⟨0, "", []⟩

/-- Modelled from the spec: `portainer.Stack` is declared in the imported
portainer API package. Per the data model it has a numeric identity, a name,
and the cluster identifier and endpoint ID it is scoped to. -/
structure Stack where
  ID : Int
  Name : String
  SwarmID : String
  EndpointID : Int

/-- Zero value `portainer.Stack{}`. -/
def Stack.zero : Stack := ⟨0, "", "", 0⟩

/-- Modelled from the spec: the remote API client (section 6 of the spec) is a
collaborator exposing `GetEndpoints`, `GetStacks` and `GetEndpointDockerInfo`.
Each field is the result of the call: `.ok x` for `(x, nil)` and `.error e` for
a non-nil error `e` (every caller in `utils.go` returns at once in that case,
without reading the value). -/
structure PortainerClient where
  GetEndpoints : Except GoError (List Endpoint)
  GetStacks : String → Int → Except GoError (List Stack)
  GetEndpointDockerInfo : Int → Except GoError JsonMap

/-! ## `selectValue` -/

/-- Source `selectValue` (utils.go 141-150). -/
def selectValue : JsonMap → List String → Outcome Value
  | _, [] => .panicked .indexOutOfRange
  | jsonMap, key :: rest =>
    match mapIndex jsonMap key with
    | .nil => .returned .nil (some valueNotFoundError)
    | value =>
      if 1 < (key :: rest).length then
        match value with
        | .object inner => selectValue inner rest
        | _ => .panicked .interfaceConversion
      else
        .returned value none

/-! ## Resolvers -/

/-- Source `GetDefaultEndpoint` (utils.go 31-53); `getClient` is the result of
`GetClient()`. -/
def GetDefaultEndpoint (getClient : Except GoError PortainerClient) : Outcome Endpoint :=
  match getClient with
  | .error err => .returned Endpoint.zero (some err)
  | .ok portainerClient =>
    match portainerClient.GetEndpoints with
    | .error err => .returned Endpoint.zero (some err)
    | .ok endpoints =>
      if endpoints.length = 0 then
        .returned Endpoint.zero (some ErrNoEndpointsAvailable)
      else if 1 < endpoints.length then
        .returned Endpoint.zero (some ErrSeveralEndpointsAvailable)
      else
        match endpoints with
        | endpoint :: _ => .returned endpoint none
        | [] => .panicked .indexOutOfRange

/-- Source `GetStackByName` (utils.go 55-73). The `range` loop returning at the
first element that passes the test is `List.find?`. -/
def GetStackByName (getClient : Except GoError PortainerClient)
    (name : String) (swarmId : String) (endpointId : Int) : Outcome Stack :=
  match getClient with
  | .error err => .returned Stack.zero (some err)
  | .ok portainerClient =>
    match portainerClient.GetStacks swarmId endpointId with
    | .error err => .returned Stack.zero (some err)
    | .ok stackList =>
      match stackList.find? (fun stack => stack.Name == name) with
      | some stack => .returned stack none
      | none => .returned Stack.zero (some ErrStackNotFound)

/-- Source `GetEndpointByName` (utils.go 75-93). -/
def GetEndpointByName (getClient : Except GoError PortainerClient)
    (name : String) : Outcome Endpoint :=
  match getClient with
  | .error err => .returned Endpoint.zero (some err)
  | .ok portainerClient =>
    match portainerClient.GetEndpoints with
    | .error err => .returned Endpoint.zero (some err)
    | .ok endpoints =>
      match endpoints.find? (fun endpoint => endpoint.Name == name) with
      | some endpoint => .returned endpoint none
      | none => .returned Endpoint.zero (some ErrEndpointNotFound)

/-- Source `GetEndpointFromListById` (utils.go 95-102). The named result `err`
is never assigned, so `return endpoints[i], err` returns a nil error. -/
def GetEndpointFromListById (endpoints : List Endpoint) (id : Int) : Outcome Endpoint :=
  match endpoints.find? (fun endpoint => endpoint.ID == id) with
  | some endpoint => .returned endpoint none
  | none => .returned Endpoint.zero (some ErrEndpointNotFound)

/-- Source `GetEndpointFromListByName` (utils.go 104-111). -/
def GetEndpointFromListByName (endpoints : List Endpoint) (name : String) : Outcome Endpoint :=
  match endpoints.find? (fun endpoint => endpoint.Name == name) with
  | some endpoint => .returned endpoint none
  | none => .returned Endpoint.zero (some ErrEndpointNotFound)

/-- Source `GetEndpointSwarmClusterId` (utils.go 113-139). -/
def GetEndpointSwarmClusterId (getClient : Except GoError PortainerClient)
    (endpointId : Int) : Outcome String :=
  match getClient with
  | .error err => .returned "" (some err)
  | .ok portainerClient =>
    match portainerClient.GetEndpointDockerInfo endpointId with
    | .error err => .returned "" (some err)
    | .ok result =>
      match selectValue result ["Swarm", "Cluster", "ID"] with
      | .panicked p => .panicked p
      | .returned id none =>
        match id with
        | .str s => .returned s none
        | _ => .panicked .interfaceConversion
      | .returned _ (some selectionErr) =>
        if selectionErr = valueNotFoundError then
          .returned "" (some ErrStackClusterNotFound)
        else
          .returned "" (some selectionErr)

/-! ## Path resolution, as the specification words it -/

/-- Resolution of a path in a nested mapping as the specification describes
it: every proper initial segment of the path leads to a nested mapping, and the
last segment is a key of the mapping reached; the result is the value stored
under that key (which may be nil). `none` when some segment is absent or an
intermediate value is not a mapping, and for the empty path. -/
def resolvePath : JsonMap → List String → Option Value
  | _, [] => none
  | jsonMap, key :: rest =>
    match rest with
    | [] => jsonMap.lookup key
    | _ :: _ =>
      match jsonMap.lookup key with
      | some (.object inner) => resolvePath inner rest
      | _ => none

/-! ## Formatting: `fmt.Sprintf`, `fmt.Sprintln` -/

/-- Text `fmt.Sprintf` appends when operands are left over once the format
string is consumed. -/
def sprintfExtra (args : List String) : String :=
  "%!(EXTRA " ++ ", ".intercalate (args.map (fun a => "string=" ++ a)) ++ ")"

/-- Scan of a format string by `fmt.Sprintf`, for format strings whose only
verb is `%s` and operands that are strings (every call in `utils.go`): each
`%s` is replaced by the next operand, every other character is copied. -/
def sprintfAux : List Char → List String → String
  | [], [] => ""
  | [], arg :: args => sprintfExtra (arg :: args)
  | '%' :: 's' :: rest, arg :: args => arg ++ sprintfAux rest args
  | '%' :: 's' :: rest, [] => "%!s(MISSING)" ++ sprintfAux rest []
  | c :: rest, args => String.singleton c ++ sprintfAux rest args

/-- Go `fmt.Sprintf(format, args...)` on string operands. -/
def Sprintf (format : String) (args : List String) : String :=
  sprintfAux format.toList args

/-- Go `fmt.Sprintln(a)` on one string operand: the operand and a newline. -/
def Sprintln (a : String) : String := a ++ "\n"

/-! ## Type descriptors and `repr` -/

/-- Modelled from the spec: `reflect.Type` belongs to the Go standard library.
A type descriptor has a kind (struct, array, slice, or any other kind, here
`scalar`), a package path and a name; a struct has its fields in declaration
order (name and type), an array or slice has an element type. The descriptors
of this type are the finite, non-cyclic ones. -/
inductive ReflectType where
  | struct (pkgPath name : String) (fields : List (String × ReflectType))
  | array (pkgPath name : String) (elem : ReflectType)
  | slice (pkgPath name : String) (elem : ReflectType)
  | scalar (pkgPath name : String)

/-- Go `t.PkgPath()`. -/
def ReflectType.PkgPath : ReflectType → String
  | .struct pkgPath _ _ => pkgPath
  | .array pkgPath _ _ => pkgPath
  | .slice pkgPath _ _ => pkgPath
  | .scalar pkgPath _ => pkgPath

/-- Go `t.Name()`. -/
def ReflectType.Name : ReflectType → String
  | .struct _ name _ => name
  | .array _ name _ => name
  | .slice _ name _ => name
  | .scalar _ name => name

mutual
/-- Source `repr` (utils.go 163-178). -/
def repr : ReflectType → String → String → String
  | .struct _ _ fields, margin, beforeMargin =>
    reprFields fields margin beforeMargin (Sprintln "\x7b") ++ Sprintf "%s\x7d" [beforeMargin]
  | .array _ _ elem, margin, beforeMargin => Sprintf "[]%s" [repr elem margin beforeMargin]
  | .slice _ _ elem, margin, beforeMargin => Sprintf "[]%s" [repr elem margin beforeMargin]
  | .scalar _ name, _, _ => Sprintf "%s" [name]
/-- The `for` loop of `repr` over the fields still to visit (utils.go 167-170);
`r` is the text accumulated so far. -/
def reprFields : List (String × ReflectType) → String → String → String → String
  | [], _, _, r => r
  | tField :: rest, margin, beforeMargin, r =>
    reprFields rest margin beforeMargin
      (r ++ Sprintln (Sprintf "%s%s%s %s"
        [beforeMargin, margin, tField.1, repr tField.2 margin (beforeMargin ++ margin)]))
end

/-- Source `GetFormatHelp` (utils.go 152-161); `typeOfV` is `reflect.TypeOf(v)`. -/
def GetFormatHelp (typeOfV : ReflectType) : String :=
  Sprintf
    "\nFormat:\n  The --format flag accepts a Go template, which is passed a %s.%s object:\n\n%s\n"
    [typeOfV.PkgPath, typeOfV.Name, Sprintf "%s%s" ["  ", repr typeOfV "  " "  "]]

/-! ## The rendering, as the specification words it -/

mutual
/-- Reference rendering of a type descriptor, by cases on its kind as the
specification describes it: the bare name for a scalar; `[]` and the rendering
of the element type at the same indent for a sequence; for a composite an
opening brace and a newline, one line per field, and the closing brace at the
original indent. -/
def reprReference : ReflectType → String → String → String
  | .struct _ _ fields, margin, beforeMargin =>
    "\x7b" ++ "\n" ++ reprReferenceLines fields margin beforeMargin ++ beforeMargin ++ "\x7d"
  | .array _ _ elem, margin, beforeMargin => "[]" ++ reprReference elem margin beforeMargin
  | .slice _ _ elem, margin, beforeMargin => "[]" ++ reprReference elem margin beforeMargin
  | .scalar _ name, _, _ => name
/-- Field lines of the reference rendering, in declaration order: the indent
grown by one unit, the field name, a space, the rendering of the field type at
the grown indent, and a newline. -/
def reprReferenceLines : List (String × ReflectType) → String → String → String
  | [], _, _ => ""
  | tField :: rest, margin, beforeMargin =>
    beforeMargin ++ margin ++ tField.1 ++ " "
      ++ reprReference tField.2 margin (beforeMargin ++ margin) ++ "\n"
      ++ reprReferenceLines rest margin beforeMargin
end

/-! ## Measures on type descriptors -/

mutual
/-- Nesting depth of a descriptor: one more than the deepest field type or
element type. -/
def ReflectType.depth : ReflectType → Nat
  | .struct _ _ fields => fieldsDepth fields + 1
  | .array _ _ elem => elem.depth + 1
  | .slice _ _ elem => elem.depth + 1
  | .scalar _ _ => 1
/-- Largest depth among the types of a field list. -/
def fieldsDepth : List (String × ReflectType) → Nat
  | [] => 0
  | tField :: rest => max tField.2.depth (fieldsDepth rest)
end

mutual
/-- Number of composite (struct) nodes of a descriptor. -/
def ReflectType.structCount : ReflectType → Nat
  | .struct _ _ fields => fieldsStructCount fields + 1
  | .array _ _ elem => elem.structCount
  | .slice _ _ elem => elem.structCount
  | .scalar _ _ => 0
/-- Number of composite nodes below a field list. -/
def fieldsStructCount : List (String × ReflectType) → Nat
  | [] => 0
  | tField :: rest => tField.2.structCount + fieldsStructCount rest
end

mutual
/-- Total number of fields of a descriptor, over all its composite nodes. -/
def ReflectType.fieldCount : ReflectType → Nat
  | .struct _ _ fields => fieldsFieldCount fields
  | .array _ _ elem => elem.fieldCount
  | .slice _ _ elem => elem.fieldCount
  | .scalar _ _ => 0
/-- Number of fields in a field list and below it. -/
def fieldsFieldCount : List (String × ReflectType) → Nat
  | [] => 0
  | tField :: rest => 1 + tField.2.fieldCount + fieldsFieldCount rest
end

/-- A string without brace and newline characters. -/
def isPlain (s : String) : Bool :=
  s.data.all (fun c => c != '\x7b' && c != '\x7d' && c != '\n')

mutual
/-- Every type name and field name of the descriptor is free of brace and
newline characters. -/
def ReflectType.namesPlain : ReflectType → Bool
  | .struct _ name fields => isPlain name && fieldsNamesPlain fields
  | .array _ name elem => isPlain name && elem.namesPlain
  | .slice _ name elem => isPlain name && elem.namesPlain
  | .scalar _ name => isPlain name
/-- The same over a field list. -/
def fieldsNamesPlain : List (String × ReflectType) → Bool
  | [] => true
  | tField :: rest => isPlain tField.1 && tField.2.namesPlain && fieldsNamesPlain rest
end

/-- Number of occurrences of a character in a string. -/
def countChar (c : Char) (s : String) : Nat := s.data.count c

/-- One turn of the loop of `repr` under a bound: the line of the field is
appended when both the text so far and the rendering of the field type are
there. -/
def reprFuelLine (margin beforeMargin name : String) (acc inner : Option String) :
    Option String :=
  match acc, inner with
  | some r, some text =>
    some (r ++ Sprintln (Sprintf "%s%s%s %s" [beforeMargin, margin, name, text]))
  | _, _ => none

/-- The recursion of `repr` run under a bound on the depth of nested calls:
`none` when a call would exceed the bound, otherwise the text built exactly as
in `repr`, the loop over the fields being the fold. -/
def reprFuel : Nat → ReflectType → String → String → Option String
  | 0, _, _, _ => none
  | fuel + 1, .struct _ _ fields, margin, beforeMargin =>
    (fields.foldl
      (fun acc tField =>
        reprFuelLine margin beforeMargin tField.1 acc
          (reprFuel fuel tField.2 margin (beforeMargin ++ margin)))
      (some (Sprintln "\x7b"))).map (fun r => r ++ Sprintf "%s\x7d" [beforeMargin])
  | fuel + 1, .array _ _ elem, margin, beforeMargin =>
    (reprFuel fuel elem margin beforeMargin).map (fun inner => Sprintf "[]%s" [inner])
  | fuel + 1, .slice _ _ elem, margin, beforeMargin =>
    (reprFuel fuel elem margin beforeMargin).map (fun inner => Sprintf "[]%s" [inner])
  | _ + 1, .scalar _ name, _, _ => some (Sprintf "%s" [name])

/-! ## `selectValue`: call chain and descent -/

/-- Paths received by the successive calls of `selectValue`, the initial call
first: the recursion of `selectValue`, recording the argument `jsonPath` of
each call in place of the result. -/
def selectValueCalls : JsonMap → List String → List (List String)
  | _, [] => [[]]
  | jsonMap, key :: rest =>
    (key :: rest) ::
      match mapIndex jsonMap key with
      | .nil => []
      | value =>
        if 1 < (key :: rest).length then
          match value with
          | .object inner => selectValueCalls inner rest
          | _ => []
        else
          []

/-- Descent through nested mappings, as the specification words it: the
mapping reached when the segments resolve successively to nested mappings;
`none` when a segment is absent or holds something else. -/
def descend : JsonMap → List String → Option JsonMap
  | jsonMap, [] => some jsonMap
  | jsonMap, key :: rest =>
    match jsonMap.lookup key with
    | some (.object inner) => descend inner rest
    | _ => none

/-- Either a resolved entity or an error, never both: a returned non-nil error
comes with the zero value, and a returned non-zero value comes with a nil
error. -/
def NoPartialResult {α : Type} (zero : α) (o : Outcome α) : Prop :=
  ∀ (value : α) (err : Option GoError), o = .returned value err →
    (err ≠ none → value = zero) ∧ (value ≠ zero → err = none)

/-! ## A sample descriptor -/

/-- Descriptor of a struct with a scalar field, a named scalar field and a
slice of structs, used to evaluate `repr` on a concrete input. -/
def sampleStackType : ReflectType :=
  .struct "github.com/portainer/portainer/api" "Stack"
    [("ID", .scalar "github.com/portainer/portainer/api" "StackID"),
     ("Name", .scalar "" "string"),
     ("Env", .slice "" ""
        (.struct "github.com/portainer/portainer/api" "Pair"
          [("Name", .scalar "" "string"), ("Value", .scalar "" "string")]))]

/-! ## Auxiliary facts -/

/-- A `range` loop that returns at the first passing element returns the
element at the smallest passing index. -/
theorem find?_smallest_index {α : Type} (p : α → Bool) (l : List α) (i : Nat)
    (h : i < l.length) (hp : p (l.get ⟨i, h⟩) = true)
    (hmin : ∀ j (hj : j < i), p (l.get ⟨j, Nat.lt_trans hj h⟩) = false) :
    l.find? p = some (l.get ⟨i, h⟩) := by
  induction l generalizing i with
  | nil => exact absurd h (Nat.not_lt_zero _)
  | cons a l ih =>
    cases i with
    | zero =>
      have ha : p a = true := hp
      simp [List.find?, ha]
    | succ i =>
      have ha : p a = false := hmin 0 (Nat.succ_pos i)
      have hi : i < l.length := Nat.lt_of_succ_lt_succ h
      have hrec := ih i hi hp (fun j hj => hmin (j + 1) (Nat.succ_lt_succ hj))
      simpa [List.find?, ha] using hrec

/-- A loop whose test fails on every element falls through. -/
theorem find?_none_of_all_false {α : Type} (p : α → Bool) (l : List α)
    (hall : ∀ a ∈ l, p a = false) : l.find? p = none := by
  induction l with
  | nil => rfl
  | cons a l ih =>
    have ha : p a = false := hall a (List.mem_cons_self a l)
    have hrec := ih (fun b hb => hall b (List.mem_cons_of_mem a hb))
    simpa [List.find?, ha] using hrec

/-- What `selectValue` does on a path that resolves: a non-nil value is
returned with a nil error, a nil one is reported as not found. -/
theorem selectValue_of_resolvePath (jsonPath : List String) :
    ∀ (jsonMap : JsonMap) (v : Value), resolvePath jsonMap jsonPath = some v →
      selectValue jsonMap jsonPath =
        match v with
        | .nil => .returned .nil (some valueNotFoundError)
        | w => .returned w none := by
  induction jsonPath with
  | nil => intro jsonMap v h; simp [resolvePath] at h
  | cons key rest ih =>
    intro jsonMap v h
    cases rest with
    | nil =>
      have hk : jsonMap.lookup key = some v := by simpa [resolvePath] using h
      cases v <;> simp [selectValue, mapIndex, hk]
    | cons key2 rest2 =>
      cases hk : jsonMap.lookup key with
      | none => simp [resolvePath, hk] at h
      | some w =>
        cases w with
        | object inner =>
          have hin : resolvePath inner (key2 :: rest2) = some v := by
            simpa [resolvePath, hk] using h
          have hrec := ih inner v hin
          simpa [selectValue, mapIndex, hk] using hrec
        | nil => simp [resolvePath, hk] at h
        | bool b => simp [resolvePath, hk] at h
        | number x => simp [resolvePath, hk] at h
        | str s => simp [resolvePath, hk] at h
        | array items => simp [resolvePath, hk] at h

/-! ## `selectValue`: claims C1 to C4 -/

/-- C1, as stated, fails: with the key `"k"` present and holding nil,
`selectValue` does not return `(nil, nil)`; it returns the not-found error,
exactly as it does on the empty mapping. -/
theorem C1_nil_leaf_counterexample :
    List.lookup "k" [("k", Value.nil)] = some Value.nil ∧
    selectValue [("k", Value.nil)] ["k"] ≠ .returned .nil none ∧
    selectValue [("k", Value.nil)] ["k"] = .returned .nil (some valueNotFoundError) ∧
    selectValue [] ["k"] = .returned .nil (some valueNotFoundError) := by
  refine ⟨rfl, ?_, rfl, rfl⟩
  intro h
  simp [selectValue, mapIndex, List.lookup] at h

/-- C1, amended: an explicit nil leaf is not distinguished from an absent key.
When the path resolves (through nested mappings) to a key holding nil,
`selectValue` returns `(nil, valueNotFoundError)`, and it returns the same pair
for a one-segment path whose key is absent. -/
theorem C1_nil_leaf_is_not_found (jsonMap : JsonMap) (jsonPath : List String) :
    (resolvePath jsonMap jsonPath = some Value.nil →
      selectValue jsonMap jsonPath = .returned .nil (some valueNotFoundError)) ∧
    (∀ key : String, jsonMap.lookup key = none →
      selectValue jsonMap [key] = .returned .nil (some valueNotFoundError)) := by
  constructor
  · intro h
    simpa using selectValue_of_resolvePath jsonPath jsonMap Value.nil h
  · intro key hk
    simp [selectValue, mapIndex, hk]

/-- Witness for C1 amended: a nil leaf under `"a"."b"`, and an absent key. -/
theorem C1_nil_leaf_is_not_found_witness :
    selectValue [("a", Value.object [("b", Value.nil)])] ["a", "b"]
        = .returned .nil (some valueNotFoundError) ∧
    selectValue [("a", Value.object [("b", Value.nil)])] ["z"]
        = .returned .nil (some valueNotFoundError) :=
  ⟨(C1_nil_leaf_is_not_found [("a", Value.object [("b", Value.nil)])] ["a", "b"]).1 rfl,
   (C1_nil_leaf_is_not_found [("a", Value.object [("b", Value.nil)])] ["a", "b"]).2 "z" rfl⟩

/-- C2: when every proper initial segment of the path resolves to a nested
mapping and the full path resolves to a key holding a non-nil value `v`,
`selectValue` returns exactly `v` with a nil error. -/
theorem C2_selectValue_returns_leaf (jsonMap : JsonMap) (jsonPath : List String) (v : Value)
    (hres : resolvePath jsonMap jsonPath = some v) (hv : v ≠ Value.nil) :
    selectValue jsonMap jsonPath = .returned v none := by
  have h := selectValue_of_resolvePath jsonPath jsonMap v hres
  cases v with
  | nil => exact absurd rfl hv
  | bool b => simpa using h
  | number x => simpa using h
  | str s => simpa using h
  | array items => simpa using h
  | object fields => simpa using h

/-- Witness for C2: a number two levels down is returned unchanged. -/
theorem C2_selectValue_returns_leaf_witness :
    selectValue [("a", Value.object [("x", Value.bool true), ("b", Value.number 7)])] ["a", "b"]
      = .returned (Value.number 7) none :=
  C2_selectValue_returns_leaf
    [("a", Value.object [("x", Value.bool true), ("b", Value.number 7)])] ["a", "b"]
    (Value.number 7) rfl (by intro h; cases h)

/-- C3: when the first segment is not a key of the mapping, `selectValue`
fails with `valueNotFoundError`, whatever the remaining segments are. -/
theorem C3_absent_first_key (jsonMap : JsonMap) (key : String) (rest : List String)
    (habsent : jsonMap.lookup key = none) :
    selectValue jsonMap (key :: rest) = .returned .nil (some valueNotFoundError) := by
  simp [selectValue, mapIndex, habsent]

/-- Witness for C3: the first key is absent and the value under the other key
is not a mapping. -/
theorem C3_absent_first_key_witness :
    selectValue [("a", Value.str "x")] ["b", "c", "d"]
      = .returned .nil (some valueNotFoundError) :=
  C3_absent_first_key [("a", Value.str "x")] "b" ["c", "d"] rfl

/-- C4, as stated, fails: with `"k"` holding a string and a two-segment path,
`selectValue` returns no pair at all (so no error other than
`valueNotFoundError`); the unchecked type assertion panics. The same happens
in `GetEndpointSwarmClusterId` when `"Swarm"` holds a string. -/
theorem C4_shape_mismatch_counterexample :
    (¬ ∃ (v : Value) (e : Option GoError),
      selectValue [("k", Value.str "x")] ["k", "j"] = .returned v e) ∧
    selectValue [("k", Value.str "x")] ["k", "j"] = .panicked .interfaceConversion ∧
    GetEndpointSwarmClusterId
      (.ok ⟨.ok [], fun _ _ => .ok [], fun _ => .ok [("Swarm", Value.str "x")]⟩) 1
      = .panicked .interfaceConversion := by
  refine ⟨?_, rfl, rfl⟩
  rintro ⟨v, e, h⟩
  simp [selectValue, mapIndex, List.lookup] at h

/-- C4, amended: shape mismatch is a panic, not an error value. When the first
segment is present with a non-nil value that is not a string-keyed mapping and
at least one more segment remains, `selectValue` aborts with a failed type
assertion; and `GetEndpointSwarmClusterId` aborts the same way when the fetched
docker info holds such a value under `"Swarm"`. -/
theorem C4_shape_mismatch_panics (jsonMap : JsonMap) (key key2 : String) (rest : List String)
    (v : Value) (hpresent : jsonMap.lookup key = some v) (hnonnil : v ≠ Value.nil)
    (hshape : ∀ inner, v ≠ Value.object inner) :
    selectValue jsonMap (key :: key2 :: rest) = .panicked .interfaceConversion ∧
    (key = "Swarm" → ∀ (portainerClient : PortainerClient) (endpointId : Int),
      portainerClient.GetEndpointDockerInfo endpointId = .ok jsonMap →
      GetEndpointSwarmClusterId (.ok portainerClient) endpointId
        = .panicked .interfaceConversion) := by
  have hsel : ∀ k2 r, selectValue jsonMap (key :: k2 :: r) = .panicked .interfaceConversion := by
    intro k2 r
    cases v with
    | nil => exact absurd rfl hnonnil
    | object inner => exact absurd rfl (hshape inner)
    | bool b => simp [selectValue, mapIndex, hpresent]
    | number x => simp [selectValue, mapIndex, hpresent]
    | str s => simp [selectValue, mapIndex, hpresent]
    | array items => simp [selectValue, mapIndex, hpresent]
  refine ⟨hsel key2 rest, ?_⟩
  intro hkey portainerClient endpointId hinfo
  subst hkey
  simp only [GetEndpointSwarmClusterId, hinfo, hsel "Cluster" ["ID"]]

/-- Witness for C4 amended: `"Swarm"` holds a number. -/
theorem C4_shape_mismatch_panics_witness :
    selectValue [("Swarm", Value.number 3)] ["Swarm", "Cluster", "ID"]
      = .panicked .interfaceConversion ∧
    GetEndpointSwarmClusterId
      (.ok ⟨.ok [], fun _ _ => .ok [], fun _ => .ok [("Swarm", Value.number 3)]⟩) 5
      = .panicked .interfaceConversion :=
  ⟨(C4_shape_mismatch_panics [("Swarm", Value.number 3)] "Swarm" "Cluster" ["ID"]
      (Value.number 3) rfl (by intro h; cases h) (by intro inner h; cases h)).1,
   (C4_shape_mismatch_panics [("Swarm", Value.number 3)] "Swarm" "Cluster" ["ID"]
      (Value.number 3) rfl (by intro h; cases h) (by intro inner h; cases h)).2 rfl
      ⟨.ok [], fun _ _ => .ok [], fun _ => .ok [("Swarm", Value.number 3)]⟩ 5 rfl⟩

/-! ## Endpoint and stack resolution: claims C5 to C9 -/

/-- C5: over the list fetched by a successful `GetEndpoints`,
`GetDefaultEndpoint` returns the sole element with a nil error when the list
has exactly one element, fails with `ErrNoEndpointsAvailable` when it is empty,
and fails with `ErrSeveralEndpointsAvailable` (returning the zero endpoint, so
none of the candidates) when it has two or more elements. -/
theorem C5_GetDefaultEndpoint_policy (portainerClient : PortainerClient)
    (endpoints : List Endpoint) (hfetch : portainerClient.GetEndpoints = .ok endpoints) :
    (∀ e, endpoints = [e] → GetDefaultEndpoint (.ok portainerClient) = .returned e none) ∧
    (endpoints = [] →
      GetDefaultEndpoint (.ok portainerClient)
        = .returned Endpoint.zero (some ErrNoEndpointsAvailable)) ∧
    (2 ≤ endpoints.length →
      GetDefaultEndpoint (.ok portainerClient)
        = .returned Endpoint.zero (some ErrSeveralEndpointsAvailable)) := by
  refine ⟨?_, ?_, ?_⟩
  · intro e he
    subst he
    simp [GetDefaultEndpoint, hfetch]
  · intro he
    subst he
    simp [GetDefaultEndpoint, hfetch]
  · intro hlen
    have h0 : endpoints.length ≠ 0 := by omega
    have h1 : 1 < endpoints.length := by omega
    simp [GetDefaultEndpoint, hfetch, h1]
    intro hnil
    simp [hnil] at h0

/-- Witness for C5: the end-to-end scenario of the specification, one endpoint
`prod` with ID 1, and a list of two endpoints. -/
theorem C5_GetDefaultEndpoint_policy_witness :
    GetDefaultEndpoint (.ok ⟨.ok [⟨1, "prod", []⟩], fun _ _ => .ok [], fun _ => .ok []⟩)
      = .returned ⟨1, "prod", []⟩ none ∧
    GetDefaultEndpoint
        (.ok ⟨.ok [⟨1, "prod", []⟩, ⟨2, "dev", []⟩], fun _ _ => .ok [], fun _ => .ok []⟩)
      = .returned Endpoint.zero (some ErrSeveralEndpointsAvailable) :=
  ⟨(C5_GetDefaultEndpoint_policy
      ⟨.ok [⟨1, "prod", []⟩], fun _ _ => .ok [], fun _ => .ok []⟩ [⟨1, "prod", []⟩] rfl).1
      ⟨1, "prod", []⟩ rfl,
   (C5_GetDefaultEndpoint_policy
      ⟨.ok [⟨1, "prod", []⟩, ⟨2, "dev", []⟩], fun _ _ => .ok [], fun _ => .ok []⟩
      [⟨1, "prod", []⟩, ⟨2, "dev", []⟩] rfl).2.2 (by decide)⟩

/-- C6: over the list fetched by a successful `GetEndpoints`,
`GetEndpointByName` returns, with a nil error, the element at the smallest
index whose `Name` equals the query; when no element matches (in particular on
the empty list) it fails with `ErrEndpointNotFound`. -/
theorem C6_GetEndpointByName_first_match (portainerClient : PortainerClient)
    (endpoints : List Endpoint) (name : String)
    (hfetch : portainerClient.GetEndpoints = .ok endpoints) :
    (∀ (i : Nat) (hi : i < endpoints.length),
      (endpoints.get ⟨i, hi⟩).Name = name →
      (∀ (j : Nat) (hj : j < i), (endpoints.get ⟨j, Nat.lt_trans hj hi⟩).Name ≠ name) →
      GetEndpointByName (.ok portainerClient) name
        = .returned (endpoints.get ⟨i, hi⟩) none) ∧
    ((∀ e ∈ endpoints, e.Name ≠ name) →
      GetEndpointByName (.ok portainerClient) name
        = .returned Endpoint.zero (some ErrEndpointNotFound)) := by
  constructor
  · intro i hi hname hmin
    have hfind := find?_smallest_index (fun endpoint : Endpoint => endpoint.Name == name)
      endpoints i hi (by simpa using hname) (fun j hj => by simpa using hmin j hj)
    simp only [GetEndpointByName, hfetch, hfind]
  · intro hnone
    have hfind := find?_none_of_all_false (fun endpoint : Endpoint => endpoint.Name == name)
      endpoints (fun e he => by simpa using hnone e he)
    simp only [GetEndpointByName, hfetch, hfind]

/-- Witness for C6: two endpoints named `prod`; the one at index 1 (the first
of the two) is returned, and the empty list yields not-found. -/
theorem C6_GetEndpointByName_first_match_witness :
    GetEndpointByName
        (.ok ⟨.ok [⟨1, "dev", []⟩, ⟨2, "prod", []⟩, ⟨3, "prod", []⟩],
          fun _ _ => .ok [], fun _ => .ok []⟩) "prod"
      = .returned ⟨2, "prod", []⟩ none ∧
    GetEndpointByName (.ok ⟨.ok [], fun _ _ => .ok [], fun _ => .ok []⟩) "prod"
      = .returned Endpoint.zero (some ErrEndpointNotFound) :=
  ⟨(C6_GetEndpointByName_first_match
      ⟨.ok [⟨1, "dev", []⟩, ⟨2, "prod", []⟩, ⟨3, "prod", []⟩], fun _ _ => .ok [], fun _ => .ok []⟩
      [⟨1, "dev", []⟩, ⟨2, "prod", []⟩, ⟨3, "prod", []⟩] "prod" rfl).1 1 (by decide) rfl
      (fun j hj => by
        have hj0 : j = 0 := by omega
        subst hj0
        simp),
   (C6_GetEndpointByName_first_match
      ⟨.ok [], fun _ _ => .ok [], fun _ => .ok []⟩ [] "prod" rfl).2
      (fun e he => by cases he)⟩

/-- C7: over the list fetched by a successful `GetStacks swarmId endpointId`,
`GetStackByName` returns, with a nil error, the element at the smallest index
whose `Name` equals the query, and fails with `ErrStackNotFound` when no
element matches (in particular on the empty list). -/
theorem C7_GetStackByName_first_match (portainerClient : PortainerClient)
    (stackList : List Stack) (name swarmId : String) (endpointId : Int)
    (hfetch : portainerClient.GetStacks swarmId endpointId = .ok stackList) :
    (∀ (i : Nat) (hi : i < stackList.length),
      (stackList.get ⟨i, hi⟩).Name = name →
      (∀ (j : Nat) (hj : j < i), (stackList.get ⟨j, Nat.lt_trans hj hi⟩).Name ≠ name) →
      GetStackByName (.ok portainerClient) name swarmId endpointId
        = .returned (stackList.get ⟨i, hi⟩) none) ∧
    ((∀ s ∈ stackList, s.Name ≠ name) →
      GetStackByName (.ok portainerClient) name swarmId endpointId
        = .returned Stack.zero (some ErrStackNotFound)) := by
  constructor
  · intro i hi hname hmin
    have hfind := find?_smallest_index (fun stack : Stack => stack.Name == name)
      stackList i hi (by simpa using hname) (fun j hj => by simpa using hmin j hj)
    simp only [GetStackByName, hfetch, hfind]
  · intro hnone
    have hfind := find?_none_of_all_false (fun stack : Stack => stack.Name == name)
      stackList (fun s hs => by simpa using hnone s hs)
    simp only [GetStackByName, hfetch, hfind]

/-- Witness for C7, the scenario of the claim: the stacks scoped to cluster
`c1` and endpoint 1 are the single stack `web` with ID 9; resolving `web`
yields that stack and resolving `missing` yields `ErrStackNotFound`. -/
theorem C7_GetStackByName_first_match_witness :
    GetStackByName
        (.ok ⟨.ok [⟨1, "prod", []⟩],
          fun swarmId endpointId =>
            if swarmId = "c1" ∧ endpointId = 1 then .ok [⟨9, "web", "c1", 1⟩] else .ok [],
          fun _ => .ok []⟩) "web" "c1" 1
      = .returned ⟨9, "web", "c1", 1⟩ none ∧
    GetStackByName
        (.ok ⟨.ok [⟨1, "prod", []⟩],
          fun swarmId endpointId =>
            if swarmId = "c1" ∧ endpointId = 1 then .ok [⟨9, "web", "c1", 1⟩] else .ok [],
          fun _ => .ok []⟩) "missing" "c1" 1
      = .returned Stack.zero (some ErrStackNotFound) :=
  ⟨(C7_GetStackByName_first_match
      ⟨.ok [⟨1, "prod", []⟩],
        fun swarmId endpointId =>
          if swarmId = "c1" ∧ endpointId = 1 then .ok [⟨9, "web", "c1", 1⟩] else .ok [],
        fun _ => .ok []⟩
      [⟨9, "web", "c1", 1⟩] "web" "c1" 1 rfl).1 0 (by decide) rfl
      (fun j hj => absurd hj (Nat.not_lt_zero j)),
   (C7_GetStackByName_first_match
      ⟨.ok [⟨1, "prod", []⟩],
        fun swarmId endpointId =>
          if swarmId = "c1" ∧ endpointId = 1 then .ok [⟨9, "web", "c1", 1⟩] else .ok [],
        fun _ => .ok []⟩
      [⟨9, "web", "c1", 1⟩] "missing" "c1" 1 rfl).2
      (fun s hs => by
        have hs1 : s = ⟨9, "web", "c1", 1⟩ := by simpa using hs
        subst hs1
        decide)⟩

/-- C8: `GetEndpointFromListByName` applied to a list returns the same pair
as `GetEndpointByName` run against a client whose `GetEndpoints` succeeds with
that list. -/
theorem C8_FromListByName_agrees_with_ByName (portainerClient : PortainerClient)
    (endpoints : List Endpoint) (name : String)
    (hfetch : portainerClient.GetEndpoints = .ok endpoints) :
    GetEndpointFromListByName endpoints name
      = GetEndpointByName (.ok portainerClient) name := by
  simp only [GetEndpointFromListByName, GetEndpointByName, hfetch]

/-- Witness for C8: a list with a duplicated name. -/
theorem C8_FromListByName_agrees_with_ByName_witness :
    GetEndpointFromListByName [⟨1, "a", []⟩, ⟨2, "b", []⟩, ⟨3, "b", []⟩] "b"
      = GetEndpointByName
          (.ok ⟨.ok [⟨1, "a", []⟩, ⟨2, "b", []⟩, ⟨3, "b", []⟩],
            fun _ _ => .ok [], fun _ => .ok []⟩) "b" :=
  C8_FromListByName_agrees_with_ByName
    ⟨.ok [⟨1, "a", []⟩, ⟨2, "b", []⟩, ⟨3, "b", []⟩], fun _ _ => .ok [], fun _ => .ok []⟩
    [⟨1, "a", []⟩, ⟨2, "b", []⟩, ⟨3, "b", []⟩] "b" rfl

/-- C9: `GetEndpointFromListById` returns, with a nil error, the element at
the smallest index whose `ID` equals the query, and when the IDs of the list
are pairwise distinct that index is the only one holding the ID; when no
element matches (in particular on the empty list) it returns the zero endpoint
with `ErrEndpointNotFound`. -/
theorem C9_GetEndpointFromListById (endpoints : List Endpoint) (id : Int) :
    (∀ (i : Nat) (hi : i < endpoints.length),
      (endpoints.get ⟨i, hi⟩).ID = id →
      (∀ (j : Nat) (hj : j < i), (endpoints.get ⟨j, Nat.lt_trans hj hi⟩).ID ≠ id) →
      GetEndpointFromListById endpoints id = .returned (endpoints.get ⟨i, hi⟩) none ∧
      ((endpoints.map Endpoint.ID).Nodup →
        ∀ (k : Nat) (hk : k < endpoints.length), (endpoints.get ⟨k, hk⟩).ID = id → k = i)) ∧
    ((∀ e ∈ endpoints, e.ID ≠ id) →
      GetEndpointFromListById endpoints id
        = .returned Endpoint.zero (some ErrEndpointNotFound)) := by
  constructor
  · intro i hi hid hmin
    constructor
    · have hfind := find?_smallest_index (fun endpoint : Endpoint => endpoint.ID == id)
        endpoints i hi (by simpa using hid) (fun j hj => by simpa using hmin j hj)
      simp only [GetEndpointFromListById, hfind]
    · intro hnodup k hk hkid
      have hnd : endpoints.Nodup := List.Nodup.of_map Endpoint.ID hnodup
      have heq : endpoints.get ⟨k, hk⟩ = endpoints.get ⟨i, hi⟩ :=
        List.inj_on_of_nodup_map hnodup (List.get_mem endpoints k hk)
          (List.get_mem endpoints i hi) (hkid.trans hid.symm)
      have hfin := (List.Nodup.get_inj_iff hnd).1 heq
      exact Fin.mk.inj hfin
  · intro hnone
    have hfind := find?_none_of_all_false (fun endpoint : Endpoint => endpoint.ID == id)
      endpoints (fun e he => by simpa using hnone e he)
    simp only [GetEndpointFromListById, hfind]

/-- Witness for C9: the ID 2 sits at index 1 of a list with distinct IDs, and
the ID 7 is absent. -/
theorem C9_GetEndpointFromListById_witness :
    GetEndpointFromListById [⟨1, "a", []⟩, ⟨2, "b", []⟩, ⟨3, "b", []⟩] 2
      = .returned ⟨2, "b", []⟩ none ∧
    GetEndpointFromListById [⟨1, "a", []⟩, ⟨2, "b", []⟩, ⟨3, "b", []⟩] 7
      = .returned Endpoint.zero (some ErrEndpointNotFound) :=
  ⟨((C9_GetEndpointFromListById [⟨1, "a", []⟩, ⟨2, "b", []⟩, ⟨3, "b", []⟩] 2).1 1
      (by decide) rfl
      (fun j hj => by
        have hj0 : j = 0 := by omega
        subst hj0
        simp)).1,
   (C9_GetEndpointFromListById [⟨1, "a", []⟩, ⟨2, "b", []⟩, ⟨3, "b", []⟩] 7).2
      (fun e he => by
        have hcases : e = ⟨1, "a", []⟩ ∨ e = ⟨2, "b", []⟩ ∨ e = ⟨3, "b", []⟩ := by
          simpa using he
        rcases hcases with h | h | h <;> subst h <;> decide)⟩

/-! ## Cluster identity: claim C10 -/

/-- C10: over the docker-info mapping fetched by a successful
`GetEndpointDockerInfo`, `GetEndpointSwarmClusterId` fails with
`ErrStackClusterNotFound` when the mapping has no `"Swarm"` key (the
selector error is translated), and returns `s` with a nil error when the path
`Swarm.Cluster.ID` resolves to the string `s`. -/
theorem C10_GetEndpointSwarmClusterId (portainerClient : PortainerClient)
    (endpointId : Int) (result : JsonMap)
    (hfetch : portainerClient.GetEndpointDockerInfo endpointId = .ok result) :
    (result.lookup "Swarm" = none →
      GetEndpointSwarmClusterId (.ok portainerClient) endpointId
        = .returned "" (some ErrStackClusterNotFound)) ∧
    (∀ s : String, resolvePath result ["Swarm", "Cluster", "ID"] = some (Value.str s) →
      GetEndpointSwarmClusterId (.ok portainerClient) endpointId = .returned s none) := by
  constructor
  · intro habsent
    have hsel : selectValue result ["Swarm", "Cluster", "ID"]
        = .returned .nil (some valueNotFoundError) := by
      simp [selectValue, mapIndex, habsent]
    simp [GetEndpointSwarmClusterId, hfetch, hsel]
  · intro s hres
    have hsel : selectValue result ["Swarm", "Cluster", "ID"] = .returned (Value.str s) none := by
      simpa using selectValue_of_resolvePath ["Swarm", "Cluster", "ID"] result (Value.str s) hres
    simp only [GetEndpointSwarmClusterId, hfetch, hsel]

/-- Witness for C10, the scenario of the claim: the docker info
`{"Swarm":{"Cluster":{"ID":"abc123"}}}` yields `abc123`, and a docker info
without `"Swarm"` yields `ErrStackClusterNotFound`. -/
theorem C10_GetEndpointSwarmClusterId_witness :
    GetEndpointSwarmClusterId
        (.ok ⟨.ok [], fun _ _ => .ok [], fun _ =>
          .ok [("Swarm", Value.object [("Cluster", Value.object [("ID", Value.str "abc123")])])]⟩) 1
      = .returned "abc123" none ∧
    GetEndpointSwarmClusterId
        (.ok ⟨.ok [], fun _ _ => .ok [], fun _ => .ok [("Name", Value.str "node")]⟩) 1
      = .returned "" (some ErrStackClusterNotFound) :=
  ⟨(C10_GetEndpointSwarmClusterId
      ⟨.ok [], fun _ _ => .ok [], fun _ =>
        .ok [("Swarm", Value.object [("Cluster", Value.object [("ID", Value.str "abc123")])])]⟩
      1 [("Swarm", Value.object [("Cluster", Value.object [("ID", Value.str "abc123")])])]
      rfl).2 "abc123" rfl,
   (C10_GetEndpointSwarmClusterId
      ⟨.ok [], fun _ _ => .ok [], fun _ => .ok [("Name", Value.str "node")]⟩
      1 [("Name", Value.str "node")] rfl).1 rfl⟩

/-! ## Error propagation: claims C11 and C12 -/

/-- C11: transport failures propagate unchanged. For `GetDefaultEndpoint`,
`GetEndpointByName`, `GetStackByName` and `GetEndpointSwarmClusterId`, when
`GetClient` fails with `e`, or the remote call (`GetEndpoints`, `GetStacks`,
`GetEndpointDockerInfo`) fails with `e`, the function returns exactly `e` as
its error (with the zero value), whatever `e` is; no domain error replaces
it. -/
theorem C11_transport_failure_propagates (e : GoError) (name swarmId : String)
    (endpointId : Int) :
    GetDefaultEndpoint (.error e) = .returned Endpoint.zero (some e) ∧
    GetEndpointByName (.error e) name = .returned Endpoint.zero (some e) ∧
    GetStackByName (.error e) name swarmId endpointId = .returned Stack.zero (some e) ∧
    GetEndpointSwarmClusterId (.error e) endpointId = .returned "" (some e) ∧
    (∀ portainerClient : PortainerClient, portainerClient.GetEndpoints = .error e →
      GetDefaultEndpoint (.ok portainerClient) = .returned Endpoint.zero (some e) ∧
      GetEndpointByName (.ok portainerClient) name = .returned Endpoint.zero (some e)) ∧
    (∀ portainerClient : PortainerClient,
      portainerClient.GetStacks swarmId endpointId = .error e →
      GetStackByName (.ok portainerClient) name swarmId endpointId
        = .returned Stack.zero (some e)) ∧
    (∀ portainerClient : PortainerClient,
      portainerClient.GetEndpointDockerInfo endpointId = .error e →
      GetEndpointSwarmClusterId (.ok portainerClient) endpointId = .returned "" (some e)) := by
  refine ⟨rfl, rfl, rfl, rfl, ?_, ?_, ?_⟩
  · intro portainerClient hfail
    constructor
    · simp only [GetDefaultEndpoint, hfail]
    · simp only [GetEndpointByName, hfail]
  · intro portainerClient hfail
    simp only [GetStackByName, hfail]
  · intro portainerClient hfail
    simp only [GetEndpointSwarmClusterId, hfail]

/-- Witness for C11: a connection failure reported by `GetEndpoints`, by
`GetStacks` and by `GetEndpointDockerInfo`. -/
theorem C11_transport_failure_propagates_witness :
    GetDefaultEndpoint
        (.ok ⟨.error (.foreign "connection refused"),
          fun _ _ => .error (.foreign "connection refused"),
          fun _ => .error (.foreign "connection refused")⟩)
      = .returned Endpoint.zero (some (.foreign "connection refused")) ∧
    GetStackByName
        (.ok ⟨.error (.foreign "connection refused"),
          fun _ _ => .error (.foreign "connection refused"),
          fun _ => .error (.foreign "connection refused")⟩) "web" "c1" 1
      = .returned Stack.zero (some (.foreign "connection refused")) ∧
    GetEndpointSwarmClusterId
        (.ok ⟨.error (.foreign "connection refused"),
          fun _ _ => .error (.foreign "connection refused"),
          fun _ => .error (.foreign "connection refused")⟩) 1
      = .returned "" (some (.foreign "connection refused")) :=
  ⟨((C11_transport_failure_propagates (.foreign "connection refused") "web" "c1" 1).2.2.2.2.1
      ⟨.error (.foreign "connection refused"),
        fun _ _ => .error (.foreign "connection refused"),
        fun _ => .error (.foreign "connection refused")⟩ rfl).1,
   (C11_transport_failure_propagates (.foreign "connection refused") "web" "c1" 1).2.2.2.2.2.1
      ⟨.error (.foreign "connection refused"),
        fun _ _ => .error (.foreign "connection refused"),
        fun _ => .error (.foreign "connection refused")⟩ rfl,
   (C11_transport_failure_propagates (.foreign "connection refused") "web" "c1" 1).2.2.2.2.2.2
      ⟨.error (.foreign "connection refused"),
        fun _ _ => .error (.foreign "connection refused"),
        fun _ => .error (.foreign "connection refused")⟩ rfl⟩

/-- A return of the zero value gives no partial result. -/
theorem noPartialResult_zero {α : Type} (zero : α) (err : Option GoError) :
    NoPartialResult zero (Outcome.returned zero err) := by
  intro value err2 h
  have hval : value = zero := by
    injection h with h1 _
    exact h1.symm
  exact ⟨fun _ => hval, fun hne => absurd hval hne⟩

/-- A return with a nil error gives no partial result. -/
theorem noPartialResult_ok {α : Type} (zero value : α) :
    NoPartialResult zero (Outcome.returned value none) := by
  intro value2 err h
  have herr : err = none := by
    injection h with _ h2
    exact h2.symm
  exact ⟨fun hne => absurd herr hne, fun _ => herr⟩

/-- A panic returns nothing, so no partial result. -/
theorem noPartialResult_panicked {α : Type} (zero : α) (p : Panic) :
    NoPartialResult zero (Outcome.panicked p) := by
  intro value err h
  cases h

/-- C12: no partial result accompanies an error. For every input and every
outcome of `GetClient` and of the remote calls, whenever `GetDefaultEndpoint`,
`GetEndpointByName`, `GetEndpointFromListByName`, `GetEndpointFromListById`,
`GetStackByName` or `GetEndpointSwarmClusterId` returns a non-nil error the
value returned with it is the zero value (empty endpoint, empty stack, empty
string), and whenever the value returned is not the zero value the error is
nil. -/
theorem C12_no_partial_result (getClient : Except GoError PortainerClient)
    (endpoints : List Endpoint) (name swarmId : String) (id endpointId : Int) :
    NoPartialResult Endpoint.zero (GetDefaultEndpoint getClient) ∧
    NoPartialResult Endpoint.zero (GetEndpointByName getClient name) ∧
    NoPartialResult Endpoint.zero (GetEndpointFromListByName endpoints name) ∧
    NoPartialResult Endpoint.zero (GetEndpointFromListById endpoints id) ∧
    NoPartialResult Stack.zero (GetStackByName getClient name swarmId endpointId) ∧
    NoPartialResult "" (GetEndpointSwarmClusterId getClient endpointId) := by
  refine ⟨?_, ?_, ?_, ?_, ?_, ?_⟩
  · unfold GetDefaultEndpoint
    split
    · exact noPartialResult_zero _ _
    · split
      · exact noPartialResult_zero _ _
      · split
        · exact noPartialResult_zero _ _
        · split
          · exact noPartialResult_zero _ _
          · split
            · exact noPartialResult_ok _ _
            · exact noPartialResult_panicked _ _
  · unfold GetEndpointByName
    split
    · exact noPartialResult_zero _ _
    · split
      · exact noPartialResult_zero _ _
      · split
        · exact noPartialResult_ok _ _
        · exact noPartialResult_zero _ _
  · unfold GetEndpointFromListByName
    split
    · exact noPartialResult_ok _ _
    · exact noPartialResult_zero _ _
  · unfold GetEndpointFromListById
    split
    · exact noPartialResult_ok _ _
    · exact noPartialResult_zero _ _
  · unfold GetStackByName
    split
    · exact noPartialResult_zero _ _
    · split
      · exact noPartialResult_zero _ _
      · split
        · exact noPartialResult_ok _ _
        · exact noPartialResult_zero _ _
  · unfold GetEndpointSwarmClusterId
    split
    · exact noPartialResult_zero _ _
    · split
      · exact noPartialResult_zero _ _
      · split
        · exact noPartialResult_panicked _ _
        · split
          · exact noPartialResult_ok _ _
          · exact noPartialResult_panicked _ _
        · split
          · exact noPartialResult_zero _ _
          · exact noPartialResult_zero _ _

/-- Witness for C12: with two endpoints the default lookup returns an error,
and the value beside it is the zero endpoint. -/
theorem C12_no_partial_result_witness :
    GetDefaultEndpoint
        (.ok ⟨.ok [⟨1, "prod", []⟩, ⟨2, "dev", []⟩], fun _ _ => .ok [], fun _ => .ok []⟩)
      = .returned Endpoint.zero (some ErrSeveralEndpointsAvailable) ∧
    ((some ErrSeveralEndpointsAvailable ≠ none → Endpoint.zero = Endpoint.zero) ∧
      (Endpoint.zero ≠ Endpoint.zero → some ErrSeveralEndpointsAvailable = none)) :=
  ⟨rfl,
   (C12_no_partial_result
      (.ok ⟨.ok [⟨1, "prod", []⟩, ⟨2, "dev", []⟩], fun _ _ => .ok [], fun _ => .ok []⟩)
      [] "" "" 0 0).1 Endpoint.zero (some ErrSeveralEndpointsAvailable) rfl⟩

/-! ## Rendering: claims C13 and C14 -/

/-- The format `%s` followed by a closing brace. -/
theorem Sprintf_closing (a : String) : Sprintf "%s\x7d" [a] = a ++ "\x7d" := by
  apply String.ext
  simp [Sprintf, sprintfAux]

/-- The format of a sequence. -/
theorem Sprintf_sequence (a : String) : Sprintf "[]%s" [a] = "[]" ++ a := by
  apply String.ext
  simp [Sprintf, sprintfAux]

/-- The format `%s` alone. -/
theorem Sprintf_name (a : String) : Sprintf "%s" [a] = a := by
  simp [Sprintf, sprintfAux]

/-- The format of a field line. -/
theorem Sprintf_fieldLine (a b c d : String) :
    Sprintf "%s%s%s %s" [a, b, c, d] = a ++ b ++ c ++ " " ++ d := by
  apply String.ext
  simp [Sprintf, sprintfAux]

mutual
/-- The text built by `repr` is the reference rendering. -/
theorem repr_eq_reprReference : ∀ (t : ReflectType) (margin beforeMargin : String),
    repr t margin beforeMargin = reprReference t margin beforeMargin
  | .struct _ _ fields, margin, beforeMargin => by
    rw [repr, reprReference, reprFields_eq_lines fields margin beforeMargin, Sprintf_closing,
      Sprintln]
    simp [String.append_assoc]
  | .array _ _ elem, margin, beforeMargin => by
    rw [repr, reprReference, Sprintf_sequence, repr_eq_reprReference elem margin beforeMargin]
  | .slice _ _ elem, margin, beforeMargin => by
    rw [repr, reprReference, Sprintf_sequence, repr_eq_reprReference elem margin beforeMargin]
  | .scalar _ name, margin, beforeMargin => by
    rw [repr, reprReference, Sprintf_name]
/-- The loop of `repr` appends the field lines of the reference rendering. -/
theorem reprFields_eq_lines : ∀ (fields : List (String × ReflectType))
    (margin beforeMargin r : String),
    reprFields fields margin beforeMargin r
      = r ++ reprReferenceLines fields margin beforeMargin
  | [], margin, beforeMargin, r => by
    rw [reprFields, reprReferenceLines]
    simp
  | tField :: rest, margin, beforeMargin, r => by
    rw [reprFields, reprReferenceLines, reprFields_eq_lines rest margin beforeMargin,
      Sprintf_fieldLine, Sprintln,
      repr_eq_reprReference tField.2 margin (beforeMargin ++ margin)]
    simp [String.append_assoc]
end

/-- C13: `repr t margin beforeMargin` equals the reference rendering defined by
cases on the kind of `t`: the bare name for a scalar; `[]` followed by the
rendering of the element type at the same indent for an array or slice; for a
struct an opening brace and a newline, then for each field in declaration
order the line `beforeMargin + margin + name + " " + rendering of the field
type at indent beforeMargin + margin` ended by a newline, then `beforeMargin`
and the closing brace, without a trailing newline. -/
theorem C13_repr_is_reference_rendering (t : ReflectType) (margin beforeMargin : String) :
    repr t margin beforeMargin = reprReference t margin beforeMargin :=
  repr_eq_reprReference t margin beforeMargin

/-- C14: `GetFormatHelp` returns a newline, `Format:`, a newline, the sentence
naming the type as package path, a dot and the type name, a blank line, two
spaces followed by `repr` of the type with a two-space indent unit starting at
a two-space indent, and a final newline. -/
theorem C14_GetFormatHelp_text (typeOfV : ReflectType) :
    GetFormatHelp typeOfV =
      "\nFormat:\n  The --format flag accepts a Go template, which is passed a "
        ++ typeOfV.PkgPath ++ "." ++ typeOfV.Name ++ " object:" ++ "\n" ++ "\n"
        ++ "  " ++ repr typeOfV "  " "  " ++ "\n" := by
  apply String.ext
  simp [GetFormatHelp, Sprintf, sprintfAux]

/-! ## Termination of `repr`: claim C17 -/

/-- The type of a field is less deep than the struct. -/
theorem depth_le_fieldsDepth : ∀ (fields : List (String × ReflectType))
    (tField : String × ReflectType), tField ∈ fields → tField.2.depth ≤ fieldsDepth fields
  | [], tField, h => by cases h
  | first :: rest, tField, h => by
    rw [fieldsDepth]
    rcases List.mem_cons.1 h with h1 | h1
    · subst h1
      exact Nat.le_max_left _ _
    · exact Nat.le_trans (depth_le_fieldsDepth rest tField h1) (Nat.le_max_right _ _)

mutual
/-- Under a bound at least the depth of the descriptor, the bounded recursion
returns the text of `repr`. -/
theorem reprFuel_eq_repr : ∀ (t : ReflectType) (fuel : Nat) (margin beforeMargin : String),
    t.depth ≤ fuel → reprFuel fuel t margin beforeMargin = some (repr t margin beforeMargin)
  | .struct _ _ fields, 0, _, _, h => by
    rw [ReflectType.depth] at h
    omega
  | .struct _ _ fields, fuel + 1, margin, beforeMargin, h => by
    rw [ReflectType.depth] at h
    rw [reprFuel, reprFuel_loop_eq fields fuel margin beforeMargin _ (by omega), repr]
    rfl
  | .array _ _ elem, 0, _, _, h => by
    rw [ReflectType.depth] at h
    omega
  | .array _ _ elem, fuel + 1, margin, beforeMargin, h => by
    rw [ReflectType.depth] at h
    rw [reprFuel, reprFuel_eq_repr elem fuel margin beforeMargin (by omega), repr]
    rfl
  | .slice _ _ elem, 0, _, _, h => by
    rw [ReflectType.depth] at h
    omega
  | .slice _ _ elem, fuel + 1, margin, beforeMargin, h => by
    rw [ReflectType.depth] at h
    rw [reprFuel, reprFuel_eq_repr elem fuel margin beforeMargin (by omega), repr]
    rfl
  | .scalar _ name, 0, _, _, h => by
    rw [ReflectType.depth] at h
    omega
  | .scalar _ name, fuel + 1, margin, beforeMargin, _ => by
    rw [reprFuel, repr]
/-- The bounded loop over the fields returns the text of the loop of `repr`. -/
theorem reprFuel_loop_eq : ∀ (fields : List (String × ReflectType)) (fuel : Nat)
    (margin beforeMargin r : String), fieldsDepth fields ≤ fuel →
    fields.foldl
      (fun acc tField =>
        reprFuelLine margin beforeMargin tField.1 acc
          (reprFuel fuel tField.2 margin (beforeMargin ++ margin)))
      (some r) = some (reprFields fields margin beforeMargin r)
  | [], _, _, _, _, _ => by
    rw [reprFields]
    rfl
  | tField :: rest, fuel, margin, beforeMargin, r, h => by
    rw [fieldsDepth] at h
    have h1 : tField.2.depth ≤ fuel := Nat.le_trans (Nat.le_max_left _ _) h
    have h2 : fieldsDepth rest ≤ fuel := Nat.le_trans (Nat.le_max_right _ _) h
    rw [List.foldl_cons, reprFuel_eq_repr tField.2 fuel margin (beforeMargin ++ margin) h1,
      reprFields]
    exact reprFuel_loop_eq rest fuel margin beforeMargin _ h2
end

/-- C17: `repr` terminates and returns a string on every (finite, non-cyclic)
type descriptor and every pair of indent strings. `repr` is a total function
into `String`, and its recursion run under a bound on the depth of nested
calls returns that string as soon as the bound reaches the depth of the
descriptor; every recursive call is on a field type or an element type, which
is strictly less deep than the argument. -/
theorem C17_repr_terminates (t : ReflectType) (margin beforeMargin : String) :
    (∀ fuel : Nat, t.depth ≤ fuel →
      reprFuel fuel t margin beforeMargin = some (repr t margin beforeMargin)) ∧
    (∀ (pkgPath name : String) (fields : List (String × ReflectType)),
      t = .struct pkgPath name fields →
      ∀ tField ∈ fields, tField.2.depth < t.depth) ∧
    (∀ (pkgPath name : String) (elem : ReflectType),
      t = .array pkgPath name elem ∨ t = .slice pkgPath name elem →
      elem.depth < t.depth) := by
  refine ⟨fun fuel h => reprFuel_eq_repr t fuel margin beforeMargin h, ?_, ?_⟩
  · intro pkgPath name fields ht tField hmem
    subst ht
    rw [ReflectType.depth]
    exact Nat.lt_succ_of_le (depth_le_fieldsDepth fields tField hmem)
  · intro pkgPath name elem ht
    rcases ht with ht | ht <;> subst ht <;> rw [ReflectType.depth] <;> exact Nat.lt_succ_self _

/-- Witness for C17: on the sample descriptor, of depth 4, a bound of 4 nested
calls gives the text of `repr`. -/
theorem C17_repr_terminates_witness :
    reprFuel 4 sampleStackType "  " "  " = some (repr sampleStackType "  " "  ") ∧
    repr sampleStackType "  " "  "
      = "\x7b\n    ID StackID\n    Name string\n    Env []\x7b\n      Name string\n      Value string\n    \x7d\n  \x7d" :=
  ⟨(C17_repr_terminates sampleStackType "  " "  ").1 4 (by decide), by decide⟩

/-! ## Balance of the rendering: claim C19 -/

/-- Occurrences of a character add up over concatenation. -/
theorem countChar_append (c : Char) (s t : String) :
    countChar c (s ++ t) = countChar c s + countChar c t := by
  simp [countChar, List.count_append]

/-- A plain string has no brace and no newline. -/
theorem countChar_of_isPlain (s : String) (h : isPlain s = true) :
    countChar '\x7b' s = 0 ∧ countChar '\x7d' s = 0 ∧ countChar '\n' s = 0 := by
  simp only [isPlain, List.all_eq_true] at h
  refine ⟨?_, ?_, ?_⟩ <;>
  · rw [countChar, List.count_eq_zero]
    intro hmem
    have := h _ hmem
    simp at this

/-- Plain strings concatenate to a plain string. -/
theorem isPlain_append (s t : String) (hs : isPlain s = true) (ht : isPlain t = true) :
    isPlain (s ++ t) = true := by
  simp only [isPlain, List.all_eq_true, String.data_append, List.mem_append] at *
  intro c hc
  rcases hc with hc | hc
  · exact hs c hc
  · exact ht c hc

mutual
/-- Braces and newlines of the reference rendering of a descriptor. -/
theorem reprReference_counts : ∀ (t : ReflectType) (margin beforeMargin : String),
    t.namesPlain = true → isPlain margin = true → isPlain beforeMargin = true →
    countChar '\x7b' (reprReference t margin beforeMargin) = t.structCount ∧
    countChar '\x7d' (reprReference t margin beforeMargin) = t.structCount ∧
    countChar '\n' (reprReference t margin beforeMargin) = t.structCount + t.fieldCount
  | .struct _ name fields, margin, beforeMargin, ht, hm, hb => by
    rw [ReflectType.namesPlain, Bool.and_eq_true] at ht
    obtain ⟨l1, l2, l3⟩ := reprReferenceLines_counts fields margin beforeMargin ht.2 hm hb
    obtain ⟨b1, b2, b3⟩ := countChar_of_isPlain beforeMargin hb
    rw [reprReference, ReflectType.structCount, ReflectType.fieldCount]
    simp only [countChar_append, l1, l2, l3, b1, b2, b3]
    simp [countChar]
    omega
  | .array _ name elem, margin, beforeMargin, ht, hm, hb => by
    rw [ReflectType.namesPlain, Bool.and_eq_true] at ht
    obtain ⟨e1, e2, e3⟩ := reprReference_counts elem margin beforeMargin ht.2 hm hb
    rw [reprReference, ReflectType.structCount, ReflectType.fieldCount]
    simp only [countChar_append, e1, e2, e3]
    simp [countChar]
  | .slice _ name elem, margin, beforeMargin, ht, hm, hb => by
    rw [ReflectType.namesPlain, Bool.and_eq_true] at ht
    obtain ⟨e1, e2, e3⟩ := reprReference_counts elem margin beforeMargin ht.2 hm hb
    rw [reprReference, ReflectType.structCount, ReflectType.fieldCount]
    simp only [countChar_append, e1, e2, e3]
    simp [countChar]
  | .scalar _ name, margin, beforeMargin, ht, _, _ => by
    rw [ReflectType.namesPlain] at ht
    rw [reprReference, ReflectType.structCount, ReflectType.fieldCount]
    exact countChar_of_isPlain name ht
/-- Braces and newlines of the field lines of the reference rendering. -/
theorem reprReferenceLines_counts : ∀ (fields : List (String × ReflectType))
    (margin beforeMargin : String),
    fieldsNamesPlain fields = true → isPlain margin = true → isPlain beforeMargin = true →
    countChar '\x7b' (reprReferenceLines fields margin beforeMargin)
      = fieldsStructCount fields ∧
    countChar '\x7d' (reprReferenceLines fields margin beforeMargin)
      = fieldsStructCount fields ∧
    countChar '\n' (reprReferenceLines fields margin beforeMargin)
      = fieldsStructCount fields + fieldsFieldCount fields
  | [], margin, beforeMargin, _, _, _ => by
    rw [reprReferenceLines, fieldsStructCount, fieldsFieldCount]
    simp [countChar]
  | tField :: rest, margin, beforeMargin, hf, hm, hb => by
    rw [fieldsNamesPlain, Bool.and_eq_true, Bool.and_eq_true] at hf
    obtain ⟨t1, t2, t3⟩ := reprReference_counts tField.2 margin (beforeMargin ++ margin)
      hf.1.2 hm (isPlain_append beforeMargin margin hb hm)
    obtain ⟨l1, l2, l3⟩ := reprReferenceLines_counts rest margin beforeMargin hf.2 hm hb
    obtain ⟨b1, b2, b3⟩ := countChar_of_isPlain beforeMargin hb
    obtain ⟨m1, m2, m3⟩ := countChar_of_isPlain margin hm
    obtain ⟨n1, n2, n3⟩ := countChar_of_isPlain tField.1 hf.1.1
    rw [reprReferenceLines, fieldsStructCount, fieldsFieldCount]
    simp only [countChar_append, t1, t2, t3, l1, l2, l3, b1, b2, b3, m1, m2, m3, n1, n2, n3]
    simp [countChar]
    omega
end

/-- C19: the rendered schema is balanced. When the type names and field names
of the descriptor and the two indent strings contain no brace and no newline,
the text of `repr` has as many opening braces as closing braces, both equal to
the number of composite nodes of the descriptor, and its number of newlines is
the number of composite nodes plus the total number of fields. -/
theorem C19_repr_balanced (t : ReflectType) (margin beforeMargin : String)
    (hnames : t.namesPlain = true) (hmargin : isPlain margin = true)
    (hbefore : isPlain beforeMargin = true) :
    countChar '\x7b' (repr t margin beforeMargin)
      = countChar '\x7d' (repr t margin beforeMargin) ∧
    countChar '\x7b' (repr t margin beforeMargin) = t.structCount ∧
    countChar '\x7d' (repr t margin beforeMargin) = t.structCount ∧
    countChar '\n' (repr t margin beforeMargin) = t.structCount + t.fieldCount := by
  obtain ⟨h1, h2, h3⟩ := reprReference_counts t margin beforeMargin hnames hmargin hbefore
  rw [repr_eq_reprReference t margin beforeMargin]
  exact ⟨h1.trans h2.symm, h1, h2, h3⟩

/-- Witness for C19: the sample descriptor has 2 composite nodes and 5 fields;
its rendering has 2 opening braces, 2 closing braces and 7 newlines. -/
theorem C19_repr_balanced_witness :
    countChar '\x7b' (repr sampleStackType "  " "  ") = 2 ∧
    countChar '\x7d' (repr sampleStackType "  " "  ") = 2 ∧
    countChar '\n' (repr sampleStackType "  " "  ") = 2 + 5 :=
  (C19_repr_balanced sampleStackType "  " "  " (by decide) (by decide) (by decide)).2

/-! ## `selectValue` at any depth: claims C15 and C16 -/

/-- After a descent through nested mappings, a key that indexes to nil in the
mapping reached makes `selectValue` report not-found. -/
theorem selectValue_of_descend (pre : List String) :
    ∀ (jsonMap reached : JsonMap) (key : String) (rest : List String),
      descend jsonMap pre = some reached → mapIndex reached key = Value.nil →
      selectValue jsonMap (pre ++ key :: rest) = .returned .nil (some valueNotFoundError) := by
  induction pre with
  | nil =>
    intro jsonMap reached key rest hd hnil
    have hsame : jsonMap = reached := by simpa [descend] using hd
    subst hsame
    simp [selectValue, hnil]
  | cons first pre ih =>
    intro jsonMap reached key rest hd hnil
    cases hk : jsonMap.lookup first with
    | none => simp [descend, hk] at hd
    | some w =>
      cases w with
      | object inner =>
        have hin : descend inner pre = some reached := by simpa [descend, hk] using hd
        have hrec := ih inner reached key rest hin hnil
        simpa [selectValue, mapIndex, hk] using hrec
      | nil => simp [descend, hk] at hd
      | bool b => simp [descend, hk] at hd
      | number x => simp [descend, hk] at hd
      | str s => simp [descend, hk] at hd
      | array items => simp [descend, hk] at hd

/-- C15: a missing or nil value at any depth is reported as not-found. When
the segments before index `i` (the list `pre`) resolve successively to nested
mappings and the segment at index `i` (`key`) is absent from, or maps to nil
in, the mapping reached, `selectValue` fails with `valueNotFoundError`; so
`GetEndpointSwarmClusterId` fails with `ErrStackClusterNotFound` whenever this
happens along `Swarm.Cluster.ID` in the fetched docker info, at `Swarm`, at
`Cluster` or at `ID`. -/
theorem C15_missing_or_nil_at_any_depth (jsonMap reached : JsonMap) (pre : List String)
    (key : String) (rest : List String)
    (hdescend : descend jsonMap pre = some reached)
    (hmissing : reached.lookup key = none ∨ reached.lookup key = some Value.nil) :
    selectValue jsonMap (pre ++ key :: rest) = .returned .nil (some valueNotFoundError) ∧
    (pre ++ key :: rest = ["Swarm", "Cluster", "ID"] →
      ∀ (portainerClient : PortainerClient) (endpointId : Int),
        portainerClient.GetEndpointDockerInfo endpointId = .ok jsonMap →
        GetEndpointSwarmClusterId (.ok portainerClient) endpointId
          = .returned "" (some ErrStackClusterNotFound)) := by
  have hnil : mapIndex reached key = Value.nil := by
    rcases hmissing with h | h <;> simp [mapIndex, h]
  have hsel := selectValue_of_descend pre jsonMap reached key rest hdescend hnil
  refine ⟨hsel, ?_⟩
  intro hpath portainerClient endpointId hfetch
  rw [hpath] at hsel
  simp [GetEndpointSwarmClusterId, hfetch, hsel]

/-- Witness for C15: the docker infos `{"Swarm":{}}` and
`{"Swarm":{"Cluster":{}}}` both yield `ErrStackClusterNotFound`. -/
theorem C15_missing_or_nil_at_any_depth_witness :
    GetEndpointSwarmClusterId
        (.ok ⟨.ok [], fun _ _ => .ok [], fun _ => .ok [("Swarm", Value.object [])]⟩) 1
      = .returned "" (some ErrStackClusterNotFound) ∧
    GetEndpointSwarmClusterId
        (.ok ⟨.ok [], fun _ _ => .ok [], fun _ =>
          .ok [("Swarm", Value.object [("Cluster", Value.object [])])]⟩) 1
      = .returned "" (some ErrStackClusterNotFound) :=
  ⟨(C15_missing_or_nil_at_any_depth [("Swarm", Value.object [])] [] ["Swarm"] "Cluster" ["ID"]
      rfl (Or.inl rfl)).2 rfl
      ⟨.ok [], fun _ _ => .ok [], fun _ => .ok [("Swarm", Value.object [])]⟩ 1 rfl,
   (C15_missing_or_nil_at_any_depth
      [("Swarm", Value.object [("Cluster", Value.object [])])] [] ["Swarm", "Cluster"] "ID" []
      rfl (Or.inl rfl)).2 rfl
      ⟨.ok [], fun _ _ => .ok [], fun _ =>
        .ok [("Swarm", Value.object [("Cluster", Value.object [])])]⟩ 1 rfl⟩

/-- On a non-empty path no call of `selectValue` indexes out of range, and the
calls receive the successive tails of the path. -/
theorem selectValue_calls_facts (rest : List String) :
    ∀ (jsonMap : JsonMap) (key : String),
      selectValue jsonMap (key :: rest) ≠ .panicked .indexOutOfRange ∧
      1 ≤ (selectValueCalls jsonMap (key :: rest)).length ∧
      (selectValueCalls jsonMap (key :: rest)).length ≤ (key :: rest).length ∧
      ∀ (i : Nat) (hi : i < (selectValueCalls jsonMap (key :: rest)).length),
        (selectValueCalls jsonMap (key :: rest)).get ⟨i, hi⟩ = (key :: rest).drop i := by
  induction rest with
  | nil =>
    intro jsonMap key
    cases hv : mapIndex jsonMap key <;>
      simp [selectValue, selectValueCalls, hv]
  | cons key2 rest2 ih =>
    intro jsonMap key
    cases hv : mapIndex jsonMap key with
    | object inner =>
      obtain ⟨h1, _, h3, h4⟩ := ih inner key2
      refine ⟨?_, ?_, ?_, ?_⟩
      · simpa [selectValue, hv] using h1
      · simp [selectValueCalls, hv]
      · simpa [selectValueCalls, hv] using h3
      · intro i hi
        cases i with
        | zero => simp [selectValueCalls, hv]
        | succ j =>
          have hj : j < (selectValueCalls inner (key2 :: rest2)).length := by
            simpa [selectValueCalls, hv] using hi
          have hget := h4 j hj
          simpa [selectValueCalls, hv] using hget
    | nil => simp [selectValue, selectValueCalls, hv]
    | bool b => simp [selectValue, selectValueCalls, hv]
    | number x => simp [selectValue, selectValueCalls, hv]
    | str s => simp [selectValue, selectValueCalls, hv]
    | array items => simp [selectValue, selectValueCalls, hv]

/-- C16: on a non-empty path `selectValue` is total. The access `jsonPath[0]`
is in bounds in the initial call and in every recursive call: no call receives
an empty path and the index-out-of-range panic never occurs. The recursion
ends after at least one and at most `len(jsonPath)` calls, the call number `i`
receiving the path shortened by exactly `i` segments. -/
theorem C16_selectValue_total (jsonMap : JsonMap) (jsonPath : List String)
    (hnonempty : jsonPath ≠ []) :
    selectValue jsonMap jsonPath ≠ .panicked .indexOutOfRange ∧
    (∀ q ∈ selectValueCalls jsonMap jsonPath, q ≠ []) ∧
    1 ≤ (selectValueCalls jsonMap jsonPath).length ∧
    (selectValueCalls jsonMap jsonPath).length ≤ jsonPath.length ∧
    ∀ (i : Nat) (hi : i < (selectValueCalls jsonMap jsonPath).length),
      (selectValueCalls jsonMap jsonPath).get ⟨i, hi⟩ = jsonPath.drop i := by
  cases jsonPath with
  | nil => exact absurd rfl hnonempty
  | cons key rest =>
    obtain ⟨h1, h2, h3, h4⟩ := selectValue_calls_facts rest jsonMap key
    refine ⟨h1, ?_, h2, h3, h4⟩
    intro q hq
    obtain ⟨i, hi, hget⟩ := List.getElem_of_mem hq
    have hdrop := h4 i hi
    have hq2 : q = (key :: rest).drop i := by
      rw [← hget]
      simpa using hdrop
    have hlt : i < (key :: rest).length := Nat.lt_of_lt_of_le hi h3
    intro hnil
    have hlen : ((key :: rest).drop i).length = 0 := by
      rw [← hq2, hnil]
      rfl
    rw [List.length_drop] at hlen
    omega

/-- Witness for C16: a three-segment path through two nested mappings makes
three calls, on the path and its two non-empty tails. -/
theorem C16_selectValue_total_witness :
    selectValueCalls
        [("Swarm", Value.object [("Cluster", Value.object [("ID", Value.str "abc123")])])]
        ["Swarm", "Cluster", "ID"]
      = [["Swarm", "Cluster", "ID"], ["Cluster", "ID"], ["ID"]] ∧
    selectValue
        [("Swarm", Value.object [("Cluster", Value.object [("ID", Value.str "abc123")])])]
        ["Swarm", "Cluster", "ID"] ≠ .panicked .indexOutOfRange :=
  ⟨rfl,
   (C16_selectValue_total
      [("Swarm", Value.object [("Cluster", Value.object [("ID", Value.str "abc123")])])]
      ["Swarm", "Cluster", "ID"] (by intro h; cases h)).1⟩

/-! ## Consistency of the lookups: claim C18 -/

/-- C18: the default endpoint is consistent with the list lookups. When
`GetDefaultEndpoint` over the fetched list succeeds with `e`, looking `e.Name`
up by name and `e.ID` up by ID in that list both succeed and return `e`; and
whenever `GetEndpointFromListByName` succeeds with `e` on a list and a name,
`e` is an element of the list and its name is the query. -/
theorem C18_default_consistent_with_lookups (portainerClient : PortainerClient)
    (endpoints : List Endpoint) (hfetch : portainerClient.GetEndpoints = .ok endpoints) :
    (∀ e : Endpoint, GetDefaultEndpoint (.ok portainerClient) = .returned e none →
      GetEndpointFromListByName endpoints e.Name = .returned e none ∧
      GetEndpointFromListById endpoints e.ID = .returned e none) ∧
    (∀ (name : String) (e : Endpoint),
      GetEndpointFromListByName endpoints name = .returned e none →
      e ∈ endpoints ∧ e.Name = name) := by
  constructor
  · intro e hdef
    cases endpoints with
    | nil => simp [GetDefaultEndpoint, hfetch] at hdef
    | cons a rest =>
      cases rest with
      | nil =>
        have hae : a = e := by simpa [GetDefaultEndpoint, hfetch] using hdef
        subst hae
        simp [GetEndpointFromListByName, GetEndpointFromListById]
      | cons b rest2 => simp [GetDefaultEndpoint, hfetch] at hdef
  · intro name e hfound
    cases hfind : endpoints.find? (fun endpoint => endpoint.Name == name) with
    | none => simp [GetEndpointFromListByName, hfind] at hfound
    | some x =>
      have hxe : x = e := by simpa [GetEndpointFromListByName, hfind] using hfound
      subst hxe
      have hp := List.find?_some hfind
      exact ⟨List.mem_of_find?_eq_some hfind, by simpa using hp⟩

/-- Witness for C18: the single endpoint `prod` with ID 1 is the default, and
both list lookups find it. -/
theorem C18_default_consistent_with_lookups_witness :
    GetEndpointFromListByName [⟨1, "prod", []⟩] "prod" = .returned ⟨1, "prod", []⟩ none ∧
    GetEndpointFromListById [⟨1, "prod", []⟩] 1 = .returned ⟨1, "prod", []⟩ none :=
  (C18_default_consistent_with_lookups
    ⟨.ok [⟨1, "prod", []⟩], fun _ _ => .ok [], fun _ => .ok []⟩ [⟨1, "prod", []⟩] rfl).1
    ⟨1, "prod", []⟩ rfl

end Common
